import Mathlib

/-!
Shallow embedding of the msgpack-rpc endpoint package: the endpoint send
path (send, Call, Notify), the registration helpers (isExported,
isExportedOrBuiltinType, suitableMethods, register) and the thin Client
and ServerConn wrappers, together with the Go channel-close semantics the
wrappers rely on.  Wire values are modelled as structured msgpack values,
the connection as the list of envelopes successfully written to it, and
Go maps as association lists with overwrite-on-assign semantics.
-/

/-- A structured msgpack value: nil, integer, string or array. -/
inductive MP : Type
  | nil : MP
  | int (n : Int) : MP
  | str (s : String) : MP
  | arr (l : List MP) : MP

mutual

/-- Decidable equality for msgpack values. -/
def MP.decEq : (a b : MP) → Decidable (a = b)
  | .nil, .nil => isTrue rfl
  | .nil, .int _ => isFalse (fun h => MP.noConfusion h)
  | .nil, .str _ => isFalse (fun h => MP.noConfusion h)
  | .nil, .arr _ => isFalse (fun h => MP.noConfusion h)
  | .int _, .nil => isFalse (fun h => MP.noConfusion h)
  | .int m, .int n =>
    if h : m = n then isTrue (h ▸ rfl) else isFalse (fun he => h (MP.noConfusion he id))
  | .int _, .str _ => isFalse (fun h => MP.noConfusion h)
  | .int _, .arr _ => isFalse (fun h => MP.noConfusion h)
  | .str _, .nil => isFalse (fun h => MP.noConfusion h)
  | .str _, .int _ => isFalse (fun h => MP.noConfusion h)
  | .str s, .str t =>
    if h : s = t then isTrue (h ▸ rfl) else isFalse (fun he => h (MP.noConfusion he id))
  | .str _, .arr _ => isFalse (fun h => MP.noConfusion h)
  | .arr _, .nil => isFalse (fun h => MP.noConfusion h)
  | .arr _, .int _ => isFalse (fun h => MP.noConfusion h)
  | .arr _, .str _ => isFalse (fun h => MP.noConfusion h)
  | .arr l, .arr l' =>
    match MP.decEqList l l' with
    | isTrue h => isTrue (h ▸ rfl)
    | isFalse h => isFalse (fun he => h (MP.noConfusion he id))

/-- Decidable equality for lists of msgpack values. -/
def MP.decEqList : (a b : List MP) → Decidable (a = b)
  | [], [] => isTrue rfl
  | [], _ :: _ => isFalse (fun h => List.noConfusion h)
  | _ :: _, [] => isFalse (fun h => List.noConfusion h)
  | a :: as, b :: bs =>
    match MP.decEq a b, MP.decEqList as bs with
    | isTrue h1, isTrue h2 => isTrue (h1 ▸ h2 ▸ rfl)
    | isFalse h1, _ => isFalse (fun he => h1 (List.noConfusion he (fun h _ => h)))
    | _, isFalse h2 => isFalse (fun he => h2 (List.noConfusion he (fun _ h => h)))

end

instance : DecidableEq MP := MP.decEq

/-- Type discriminant of a request envelope (source constant msgpackRPCReq). -/
def msgpackRPCReq : Int := 0

/-- Type discriminant of a response envelope (source constant msgpackRPCRsp). -/
def msgpackRPCRsp : Int := 1

/-- Type discriminant of a notification envelope (source constant msgpackRPCNotify). -/
def msgpackRPCNotify : Int := 2

/-- One in-flight call record (source struct request): the done channel is
modelled by a Bool that is true once the completion signal has fired. -/
structure Request where
  done : Bool
  msgid : Nat
  rsp : MP
  err : Option String
deriving DecidableEq

/-- Go map lookup on an association list. -/
def mapGet {α : Type} [DecidableEq α] {β : Type} (k : α) : List (α × β) → Option β
  | [] => none
  | p :: rest => if p.1 = k then some p.2 else mapGet k rest

/-- Go map delete on an association list. -/
def mapDel {α : Type} [DecidableEq α] {β : Type} (k : α) : List (α × β) → List (α × β)
  | [] => []
  | p :: rest => if p.1 = k then mapDel k rest else p :: mapDel k rest

/-- Go map assignment on an association list: overwrites any existing entry. -/
def mapSet {α : Type} [DecidableEq α] {β : Type} (k : α) (v : β) (m : List (α × β)) : List (α × β) :=
  mapDel k m ++ [(k, v)]

/-- A Go reflect type, as far as registration inspects it: a chain of
pointers over a named type with a declared name and package path. -/
inductive GoType : Type
  | ptr (t : GoType) : GoType
  | named (name : String) (pkgPath : String) : GoType
deriving DecidableEq

/-- The cached reflect type for error (source variable typeOfError): the
builtin error interface has name "error" and empty package path. -/
def typeOfError : GoType := GoType.named "error" ""

/-- Whether a reflect type is a pointer type. -/
def GoType.isPtr : GoType → Bool
  | .ptr _ => true
  | .named _ _ => false

/-- One method of a receiver type as reflection reports it: its name, its
package path (empty exactly when the method is exported), its input types
(the receiver itself is ins[0]) and its output types. -/
structure GoMethod where
  name : String
  pkgPath : String
  ins : List GoType
  outs : List GoType
deriving DecidableEq

/-- Per-method registration record (source struct methodType); the mutex
is dropped and the call counter kept as a plain number. -/
structure methodType where
  method : GoMethod
  ArgType : GoType
  ReplyType : GoType
  numCalls : Nat
deriving DecidableEq

/-- A registered service (source struct service); the receiver value is
abstracted to the string reflection would print for its type. -/
structure service where
  name : String
  typString : String
  method : List (String × methodType)
  notify : List (String × methodType)
deriving DecidableEq

/-- The per-connection protocol engine state (source struct endpoint);
the two mutexes are dropped (the embedding is sequential), the connection
itself lives outside as the written-envelope trace. -/
structure Endpoint where
  closed : Bool
  err : Option String
  msgid : Nat
  pending : List (Nat × Request)
  serviceMap : List (String × service)
deriving DecidableEq

/-- Fresh endpoint state (source newEndpoint). -/
def newEndpoint : Endpoint :=
  { closed := false, err := none, msgid := 0, pending := [], serviceMap := [] }

/-- Whether a name is exported, i.e. starts with an upper-case letter
(source isExported); on the empty string Go decodes the replacement rune,
which is not upper-case. -/
def isExported (name : String) : Bool :=
  match name.toList with
  | [] => false
  | c :: _ => c.isUpper

/-- Whether a type, after stripping pointers, is exported or builtin
(source isExportedOrBuiltinType): builtin types have empty package path. -/
def isExportedOrBuiltinType : GoType → Bool
  | .ptr t => isExportedOrBuiltinType t
  | .named n p => isExported n || p = ""

/-- The 32-bit wrap point of the msgid counter (Go uint32 arithmetic). -/
def uint32Mod : Nat := 4294967296

/-- Result of the locked send helper: the error returned, the envelope
trace of the connection afterwards, and whether the encoder was invoked
on the connection at all. -/
structure SendRes where
  err : Option String
  wire : List MP
  encoded : Bool
deriving DecidableEq

/-- Source endpoint.send: under the write lock, if the endpoint is closed
return the stored terminal error without touching the connection;
otherwise encode the envelope onto the connection.  The outcome of the
encoder, were it invoked, is the parameter encErr (none on success). -/
def Endpoint.send (ep : Endpoint) (wire : List MP) (reqobj : MP) (encErr : Option String) :
    SendRes :=
  if ep.closed then
    { err := ep.err, wire := wire, encoded := false }
  else
    match encErr with
    | none => { err := none, wire := wire ++ [reqobj], encoded := true }
    | some e => { err := some e, wire := wire, encoded := true }

/-- How a Call invocation left the calling task. -/
inductive CallOutcome : Type
  | ret (rsp : MP) (err : Option String) : CallOutcome
  | blocked (msgid : Nat) : CallOutcome
deriving DecidableEq

/-- Result of a Call up to the point where it either returns or suspends
on the completion signal of its pending record. -/
structure CallRes where
  ep : Endpoint
  wire : List MP
  encoded : Bool
  outcome : CallOutcome
deriving DecidableEq

/-- The request envelope Call builds (source reqobj in endpoint.Call). -/
def callEnvelope (msgid : Nat) (method : String) (params : List MP) : MP :=
  MP.arr [MP.int msgpackRPCReq, MP.int msgid, MP.str method, MP.arr params]

/-- Source endpoint.Call: atomically increment the 32-bit msgid counter,
build the request envelope, fail fast with the stored error if closed,
otherwise record a pending request under the new msgid (Go map
assignment, overwriting any entry already there), send, and on send
failure delete the record and return the error; on send success suspend
on the completion signal. -/
def Endpoint.Call (ep : Endpoint) (wire : List MP) (method : String) (params : List MP)
    (encErr : Option String) : CallRes :=
  let msgid := (ep.msgid + 1) % uint32Mod
  let ep1 : Endpoint := { ep with msgid := msgid }
  let reqobj := callEnvelope msgid method params
  if ep1.closed then
    { ep := ep1, wire := wire, encoded := false, outcome := .ret .nil ep1.err }
  else
    let req : Request := { done := false, msgid := msgid, rsp := .nil, err := none }
    let ep2 : Endpoint := { ep1 with pending := mapSet msgid req ep1.pending }
    let s := ep2.send wire reqobj encErr
    match s.err with
    | some e =>
      { ep := { ep2 with pending := mapDel msgid ep2.pending },
        wire := s.wire, encoded := s.encoded, outcome := .ret .nil (some e) }
    | none =>
      { ep := ep2, wire := s.wire, encoded := s.encoded, outcome := .blocked msgid }

/-- Result of a Notify invocation. -/
structure NotifyRes where
  ep : Endpoint
  wire : List MP
  encoded : Bool
  err : Option String
deriving DecidableEq

/-- The notification envelope Notify builds (source reqobj in endpoint.Notify). -/
def notifyEnvelope (method : String) (params : List MP) : MP :=
  MP.arr [MP.int msgpackRPCNotify, MP.str method, MP.arr params]

/-- Source endpoint.Notify: build the notification envelope and send it;
no msgid is allocated and no pending record is created. -/
def Endpoint.Notify (ep : Endpoint) (wire : List MP) (method : String) (params : List MP)
    (encErr : Option String) : NotifyRes :=
  let s := ep.send wire (notifyEnvelope method params) encErr
  { ep := ep, wire := s.wire, encoded := s.encoded, err := s.err }

/-- Whether one method is kept by suitableMethods.  Mirrors the source
check sequence: the method must be exported (empty PkgPath); the second
argument (ins ordnum 2, after the receiver and the argument) must be a
pointer and exported or builtin; there must be exactly one output, of the
builtin error type.  The arity guard and the binding of the argument type
are elided from the source snapshot (it references argType without
defining it); that fragment is Modelled from the spec: a method must take
"exactly one input argument value plus exactly one output argument that
is a writable handle to the reply value", i.e. exactly three reflection
inputs counting the receiver, and methods failing the shape are skipped. -/
def methodSuitable (m : GoMethod) : Option methodType :=
  if m.pkgPath ≠ "" then none
  else
    match m.ins with
    | [_, argType, replyType] =>
      if ¬ replyType.isPtr then none
      else if ¬ isExportedOrBuiltinType replyType then none
      else
        match m.outs with
        | [retType] =>
          if retType ≠ typeOfError then none
          else some { method := m, ArgType := argType, ReplyType := replyType, numCalls := 0 }
        | _ => none
    | _ => none

/-- Source suitableMethods: walk the methods of a type and keep, keyed by
method name, exactly those that methodSuitable accepts. -/
def suitableMethods (typ : List GoMethod) : List (String × methodType) :=
  typ.filterMap (fun m => (methodSuitable m).map (fun mt => (m.name, mt)))

/-- A receiver value as registration sees it through reflection: the name
of its (indirected) type, the string form of its type, the method set of
its type, and the method set of the pointer to its type (inspected only
for the hint in the zero-methods error). -/
structure Rcvr where
  typName : String
  typString : String
  methods : List GoMethod
  ptrMethods : List GoMethod
deriving DecidableEq

/-- Source endpoint.register: derive the service name from the receiver
type name unless an explicit name is used; reject an empty name, an
unexported derived name, a duplicate service name, and a receiver with
zero suitable methods (with a pointer hint when that would help);
otherwise install the service in the service map. -/
def Endpoint.register (ep : Endpoint) (rcvr : Rcvr) (name : String) (useName : Bool) :
    Except String Endpoint :=
  let sname := if useName then name else rcvr.typName
  if sname = "" then
    Except.error ("rpc.Register: no service name for type " ++ rcvr.typString)
  else if ¬ isExported sname ∧ ¬ useName then
    Except.error ("rpc.Register: type " ++ sname ++ " is not exported")
  else if (mapGet sname ep.serviceMap).isSome then
    Except.error ("rpc: service already defined: " ++ sname)
  else
    let meths := suitableMethods rcvr.methods
    if meths.length = 0 then
      if (suitableMethods rcvr.ptrMethods).length ≠ 0 then
        Except.error ("rpc.Register: type " ++ sname ++
          " has no exported methods of suitable type (hint: pass a pointer to value of that type)")
      else
        Except.error ("rpc.Register: type " ++ sname ++ " has no exported methods of suitable type")
    else
      let s : service := { name := sname, typString := rcvr.typString, method := meths, notify := [] }
      Except.ok { ep with serviceMap := mapSet sname s ep.serviceMap }

/-- Modelled from the spec: the body of the public endpoint.Register is an
unimplemented stub in the source (the spec notes the stubbed Register,
RegisterName, RegisterMethod and Reading diverge from the intended
contract and that the working register helper is that contract), so the
public operation is modelled as the delegation the spec describes:
register under the name derived from the receiver type, no explicit name. -/
def Endpoint.Register (ep : Endpoint) (rcvr : Rcvr) : Except String Endpoint :=
  ep.register rcvr "" false

/-- Modelled from the spec: the body of endpoint.Reading, the inbound
dispatch loop, is an unimplemented stub in the source; this models the
termination step the spec prescribes, in which the loop, before
returning, stores the terminal error, marks the endpoint closed, and
resolves every still-pending call with the terminal error by firing its
completion signal, emptying the pending table.  The resolved records are
returned alongside the final endpoint state. -/
def Endpoint.Reading (ep : Endpoint) (terminal : String) : Endpoint × List Request :=
  ({ ep with closed := true, err := some terminal, pending := [] },
   ep.pending.map (fun p => { p.2 with done := true, err := some terminal }))

/-- State of a Go channel: nil (the zero value of an uninitialized field),
open, or closed. -/
inductive ChanState : Type
  | nilChan : ChanState
  | openChan : ChanState
  | closedChan : ChanState
deriving DecidableEq

/-- Go builtin close on a channel: closing an open channel closes it;
closing a nil channel or an already-closed channel panics (none). -/
def closeChan : ChanState → Option ChanState
  | .openChan => some .closedChan
  | .nilChan => none
  | .closedChan => none

/-- The client-side wrapper (source struct Client): the codec handle and
connection are owned elsewhere in the embedding; closed is the signal
channel handed to the dispatch loop. -/
structure Client where
  ep : Endpoint
  closed : ChanState
deriving DecidableEq

/-- Source NewClient: the composite literal sets only the codec handle and
the connection, so the closed channel field keeps its zero value, the nil
channel; the endpoint is fresh and the dispatch loop is started on the
nil channel. -/
def NewClient : Client :=
  { ep := newEndpoint, closed := ChanState.nilChan }

/-- Source Client.Call: delegates to endpoint.Call, passing the variadic
params slice as a single argument without expanding it, so the endpoint
receives a one-element argument list containing the whole slice. -/
def Client.Call (c : Client) (wire : List MP) (method : String) (params : List MP)
    (encErr : Option String) : CallRes :=
  c.ep.Call wire method [MP.arr params] encErr

/-- Source Client.Notify: delegates to endpoint.Notify, likewise passing
the params slice unexpanded as a single argument. -/
def Client.Notify (c : Client) (wire : List MP) (method : String) (params : List MP)
    (encErr : Option String) : NotifyRes :=
  c.ep.Notify wire method [MP.arr params] encErr

/-- Source Client.Register: delegates to endpoint.Register unchanged. -/
def Client.Register (c : Client) (rcvr : Rcvr) : Except String Endpoint :=
  c.ep.Register rcvr

/-- Source Client.Close: closes the closed channel, then the connection;
none models a panic of the close builtin. -/
def Client.Close (c : Client) : Option Client :=
  (closeChan c.closed).map (fun ch => { c with closed := ch })

/-- The server-side wrapper (source struct ServerConn). -/
structure ServerConn where
  ep : Endpoint
  closed : ChanState
deriving DecidableEq

/-- Source NewServerConn: the composite literal sets only the connection
and the endpoint, so the closed channel field keeps its zero value, the
nil channel. -/
def NewServerConn : ServerConn :=
  { ep := newEndpoint, closed := ChanState.nilChan }

/-- Source ServerConn.Call: delegates to endpoint.Call, passing the
variadic params slice as a single argument without expanding it. -/
def ServerConn.Call (sc : ServerConn) (wire : List MP) (method : String) (params : List MP)
    (encErr : Option String) : CallRes :=
  sc.ep.Call wire method [MP.arr params] encErr

/-- Source ServerConn.Notify: delegates to endpoint.Notify, likewise
passing the params slice unexpanded. -/
def ServerConn.Notify (sc : ServerConn) (wire : List MP) (method : String) (params : List MP)
    (encErr : Option String) : NotifyRes :=
  sc.ep.Notify wire method [MP.arr params] encErr

/-- Source ServerConn.Register: delegates to endpoint.Register unchanged. -/
def ServerConn.Register (sc : ServerConn) (rcvr : Rcvr) : Except String Endpoint :=
  sc.ep.Register rcvr

/-- Source ServerConn.Close: closes the closed channel, then the
connection; none models a panic of the close builtin. -/
def ServerConn.Close (sc : ServerConn) : Option ServerConn :=
  (closeChan sc.closed).map (fun ch => { sc with closed := ch })

/-- The RPC calling-convention shape as the specification words it:
exactly one input argument plus one pointer output argument holding the
reply (three reflection inputs counting the receiver) and exactly one
return value of the builtin error type.  This is the claim-side
definition, kept for comparison against the retention test of
suitableMethods. -/
def rpcShape (m : GoMethod) : Bool :=
  match m.ins, m.outs with
  | [_, _, replyType], [retType] => replyType.isPtr && decide (retType = typeOfError)
  | _, _ => false

/-- The extra retention condition the source imposes beyond the worded
shape: the reply type, after stripping pointers, is exported or builtin. -/
def replyExportedOk (m : GoMethod) : Bool :=
  match m.ins with
  | [_, _, replyType] => isExportedOrBuiltinType replyType
  | _ => false

/-- A pending request used as a concrete reading-termination input. -/
def reqW : Request := { done := false, msgid := 7, rsp := MP.nil, err := none }

/-- An endpoint with one outstanding call, for the reading-termination witness. -/
def epPendingW : Endpoint := { newEndpoint with msgid := 7, pending := [(7, reqW)] }

/-- A closed endpoint carrying its stored terminal error. -/
def epClosedW : Endpoint :=
  { closed := true, err := some "connection closed", msgid := 3, pending := [], serviceMap := [] }

/-- A pending request occupying msgid 5, for the collision input. -/
def reqOld : Request := { done := false, msgid := 5, rsp := MP.nil, err := some "old" }

/-- An endpoint whose counter is about to produce msgid 5 while an entry
for msgid 5 is still pending. -/
def epCollideW : Endpoint := { newEndpoint with msgid := 4, pending := [(5, reqOld)] }

/-- An exported method of full RPC shape whose reply points at an
unexported named type. -/
def mUnexpReply : GoMethod :=
  { name := "Add", pkgPath := "",
    ins := [GoType.named "Svc" "main", GoType.named "Args" "main",
      GoType.ptr (GoType.named "reply" "main")],
    outs := [typeOfError] }

/-- An exported method with no explicit arguments (one reflection input,
the receiver alone). -/
def mNoArgs : GoMethod :=
  { name := "Ping", pkgPath := "", ins := [GoType.named "Svc" "main"], outs := [typeOfError] }

/-- A receiver whose derived type name is unexported. -/
def rcvrBadW : Rcvr :=
  { typName := "arith", typString := "main.arith", methods := [], ptrMethods := [] }

/-- A well-shaped exported method for the registration witness. -/
def mAddW : GoMethod :=
  { name := "Add", pkgPath := "",
    ins := [GoType.named "Arith" "main", GoType.named "Args" "main",
      GoType.ptr (GoType.named "Reply" "main")],
    outs := [typeOfError] }

/-- A registrable receiver with one suitable method. -/
def rcvrGoodW : Rcvr :=
  { typName := "Arith", typString := "main.Arith", methods := [mAddW], ptrMethods := [] }

/-- The endpoint state after successfully registering rcvrGoodW on a fresh
endpoint. -/
def epAfterW : Endpoint :=
  { newEndpoint with
    serviceMap := [("Arith",
      { name := "Arith", typString := "main.Arith",
        method := [("Add",
          { method := mAddW, ArgType := GoType.named "Args" "main",
            ReplyType := GoType.ptr (GoType.named "Reply" "main"), numCalls := 0 })],
        notify := [] })] }

theorem mapDel_of_get_none {α : Type} [DecidableEq α] {β : Type} (k : α) (m : List (α × β))
    (h : mapGet k m = none) : mapDel k m = m := by
  induction m with
  | nil => rfl
  | cons p rest ih =>
    by_cases hpk : p.1 = k
    · simp [mapGet, hpk] at h
    · have h' : mapGet k rest = none := by simpa [mapGet, hpk] using h
      simp [mapDel, hpk, ih h']

theorem mapDel_append {α : Type} [DecidableEq α] {β : Type} (k : α) (a b : List (α × β)) :
    mapDel k (a ++ b) = mapDel k a ++ mapDel k b := by
  induction a with
  | nil => rfl
  | cons p rest ih =>
    by_cases hpk : p.1 = k <;> simp [mapDel, hpk, ih]

theorem mapDel_idem {α : Type} [DecidableEq α] {β : Type} (k : α) (m : List (α × β)) :
    mapDel k (mapDel k m) = mapDel k m := by
  induction m with
  | nil => rfl
  | cons p rest ih =>
    by_cases hpk : p.1 = k <;> simp [mapDel, hpk, ih]

theorem mapDel_mapSet {α : Type} [DecidableEq α] {β : Type} (k : α) (v : β)
    (m : List (α × β)) : mapDel k (mapSet k v m) = mapDel k m := by
  rw [mapSet, mapDel_append, mapDel_idem]
  simp [mapDel]

theorem mapGet_mapSet_self {α : Type} [DecidableEq α] {β : Type} (k : α) (v : β)
    (m : List (α × β)) : mapGet k (mapSet k v m) = some v := by
  rw [mapSet]
  induction m with
  | nil => simp [mapGet, mapDel]
  | cons p rest ih =>
    by_cases hpk : p.1 = k <;> simp [mapDel, mapGet, hpk, ih]

theorem mapGet_mem {α : Type} [DecidableEq α] {β : Type} {k : α} {v : β} :
    ∀ {m : List (α × β)}, mapGet k m = some v → (k, v) ∈ m := by
  intro m
  induction m with
  | nil => intro h; simp [mapGet] at h
  | cons p rest ih =>
    intro h
    by_cases hpk : p.1 = k
    · have hv : p.2 = v := by simpa [mapGet, hpk] using h
      have : (k, v) = p := by
        obtain ⟨p1, p2⟩ := p
        simp_all
      simp [this]
    · exact List.mem_cons_of_mem _ (ih (by simpa [mapGet, hpk] using h))

theorem methodSuitable_isSome (m : GoMethod) :
    (methodSuitable m).isSome
      = (decide (m.pkgPath = "") && rpcShape m && replyExportedOk m) := by
  obtain ⟨name, pkg, ins, outs⟩ := m
  by_cases hp : pkg = ""
  · rcases ins with _ | ⟨i0, _ | ⟨i1, _ | ⟨i2, _ | ⟨i3, irest⟩⟩⟩⟩ <;>
      rcases outs with _ | ⟨o0, _ | ⟨o1, orest⟩⟩ <;>
      simp only [methodSuitable, rpcShape, replyExportedOk, hp] <;>
      try simp
    all_goals
      by_cases hptr : i2.isPtr <;>
      by_cases hexp : isExportedOrBuiltinType i2 <;>
      by_cases herr : o0 = typeOfError <;>
      simp_all
  · simp [methodSuitable, rpcShape, replyExportedOk, hp]

theorem suitableMethods_names (typ : List GoMethod) :
    (suitableMethods typ).map Prod.fst
      = (typ.filter (fun m =>
          decide (m.pkgPath = "") && rpcShape m && replyExportedOk m)).map GoMethod.name := by
  induction typ with
  | nil => rfl
  | cons m rest ih =>
    rw [suitableMethods, List.filterMap_cons, List.filter_cons]
    cases h : methodSuitable m with
    | none =>
      have hb : (decide (m.pkgPath = "") && rpcShape m && replyExportedOk m) = false := by
        rw [← methodSuitable_isSome, h]
        rfl
      rw [hb]
      simpa [suitableMethods] using ih
    | some mt =>
      have hb : (decide (m.pkgPath = "") && rpcShape m && replyExportedOk m) = true := by
        rw [← methodSuitable_isSome, h]
        rfl
      rw [hb]
      simpa [suitableMethods] using ih

theorem except_error_exists {ε α : Type} (e : Except ε α) (h : ∀ x, e ≠ Except.ok x) :
    ∃ msg, e = Except.error msg := by
  cases e with
  | error msg => exact ⟨msg, rfl⟩
  | ok x => exact absurd rfl (h x)

theorem register_error_of_cond (ep : Endpoint) (rcvr : Rcvr)
    (h : rcvr.typName = "" ∨ isExported rcvr.typName = false ∨
      (mapGet rcvr.typName ep.serviceMap).isSome = true ∨
      suitableMethods rcvr.methods = []) :
    ∃ msg, ep.Register rcvr = Except.error msg := by
  apply except_error_exists
  intro x hx
  simp only [Endpoint.Register, Endpoint.register, Bool.false_eq_true, if_false] at hx
  split_ifs at hx with h1 h2 h3 h4
  rcases h with h | h | h | h
  · exact h1 h
  · exact h2 ⟨by simp [h], not_false⟩
  · exact h3 h
  · exact h4 (by simp [h])

/-- Claim C1 (dispatch-loop termination, modelled from the spec since the
Reading body is a stub in the source): when Reading terminates, the final
endpoint is closed with the terminal error stored and an empty pending
table, and every request that was still pending has been resolved: its
completion signal has fired and it carries the terminal error, so no task
suspended in Call on that signal remains blocked. -/
theorem reading_resolves_all_pending (ep : Endpoint) (terminal : String) :
    (ep.Reading terminal).1.pending = [] ∧
    (ep.Reading terminal).1.closed = true ∧
    (ep.Reading terminal).1.err = some terminal ∧
    ∀ id req, mapGet id ep.pending = some req →
      ∃ r ∈ (ep.Reading terminal).2,
        r.msgid = req.msgid ∧ r.done = true ∧ r.err = some terminal := by
  refine ⟨rfl, rfl, rfl, ?_⟩
  intro id req h
  exact ⟨{ req with done := true, err := some terminal },
    List.mem_map_of_mem _ (mapGet_mem h), rfl, rfl, rfl⟩

/-- Witness for claim C1 at a concrete endpoint with one pending call. -/
theorem reading_resolves_all_pending_witness :
    mapGet 7 epPendingW.pending = some reqW ∧
    ∃ r ∈ (epPendingW.Reading "EOF").2,
      r.msgid = reqW.msgid ∧ r.done = true ∧ r.err = some "EOF" :=
  ⟨by decide, (reading_resolves_all_pending epPendingW "EOF").2.2.2 7 reqW (by decide)⟩

/-- Claim C2: a Call or a Notify on a closed endpoint returns the stored
terminal error at once — Call without suspending, Notify as its error
result — and the connection is untouched: no envelope is appended and the
encoder is never invoked. -/
theorem closed_endpoint_fails_fast (ep : Endpoint) (wire : List MP) (method : String)
    (params : List MP) (encErr : Option String) (h : ep.closed = true) :
    (ep.Call wire method params encErr).outcome = CallOutcome.ret MP.nil ep.err ∧
    (ep.Call wire method params encErr).wire = wire ∧
    (ep.Call wire method params encErr).encoded = false ∧
    (ep.Notify wire method params encErr).err = ep.err ∧
    (ep.Notify wire method params encErr).wire = wire ∧
    (ep.Notify wire method params encErr).encoded = false := by
  refine ⟨?_, ?_, ?_, ?_, ?_, ?_⟩ <;>
    simp [Endpoint.Call, Endpoint.Notify, Endpoint.send, h]

/-- Witness for claim C2 at a concrete closed endpoint. -/
theorem closed_endpoint_fails_fast_witness :
    epClosedW.closed = true ∧
    ((epClosedW.Call [] "m" [MP.int 1] none).outcome = CallOutcome.ret MP.nil epClosedW.err ∧
     (epClosedW.Call [] "m" [MP.int 1] none).wire = [] ∧
     (epClosedW.Call [] "m" [MP.int 1] none).encoded = false ∧
     (epClosedW.Notify [] "m" [MP.int 1] none).err = epClosedW.err ∧
     (epClosedW.Notify [] "m" [MP.int 1] none).wire = [] ∧
     (epClosedW.Notify [] "m" [MP.int 1] none).encoded = false) :=
  ⟨rfl, closed_endpoint_fails_fast epClosedW [] "m" [MP.int 1] none rfl⟩

/-- Claim C3 (code evidence): Close is not idempotent and is not even safe
to call once on a freshly constructed wrapper: NewClient leaves the
closed channel nil, so the first Close already panics; and even from an
open channel a second Close closes an already-closed channel, which
panics in Go — on both wrappers. -/
theorem close_twice_panics :
    Client.Close NewClient = none ∧
    Client.Close { NewClient with closed := ChanState.openChan }
      = some { NewClient with closed := ChanState.closedChan } ∧
    Client.Close { NewClient with closed := ChanState.closedChan } = none ∧
    ServerConn.Close { NewServerConn with closed := ChanState.openChan }
      = some { NewServerConn with closed := ChanState.closedChan } ∧
    ServerConn.Close { NewServerConn with closed := ChanState.closedChan } = none := by
  decide

/-- Claim C4: the public Register (modelled from the spec as delegation to
the working register helper under the derived name) returns an error
whenever the derived name is empty, or is not exported, or is already
registered, or the receiver has zero suitable methods; and a second
registration after a successful one of the same receiver fails. -/
theorem register_rejects_invalid :
    (∀ (ep : Endpoint) (rcvr : Rcvr),
        (rcvr.typName = "" ∨ isExported rcvr.typName = false ∨
          (mapGet rcvr.typName ep.serviceMap).isSome = true ∨
          suitableMethods rcvr.methods = []) →
        ∃ msg, ep.Register rcvr = Except.error msg) ∧
    (∀ (ep ep' : Endpoint) (rcvr : Rcvr), ep.Register rcvr = Except.ok ep' →
        ∃ msg, ep'.Register rcvr = Except.error msg) := by
  constructor
  · exact register_error_of_cond
  · intro ep ep' rcvr h
    apply register_error_of_cond
    refine Or.inr (Or.inr (Or.inl ?_))
    simp only [Endpoint.Register, Endpoint.register, Bool.false_eq_true, if_false] at h
    split_ifs at h with h1 h2 h3 h4
    injection h with h'
    rw [← h']
    simp [mapGet_mapSet_self]

/-- Witness for claim C4: a receiver with an unexported derived name is
rejected, and registering the same receiver twice fails the second time. -/
theorem register_rejects_invalid_witness :
    (∃ msg, newEndpoint.Register rcvrBadW = Except.error msg) ∧
    newEndpoint.Register rcvrGoodW = Except.ok epAfterW ∧
    (∃ msg, epAfterW.Register rcvrGoodW = Except.error msg) :=
  ⟨register_rejects_invalid.1 newEndpoint rcvrBadW (Or.inr (Or.inl (by decide))),
   rfl,
   register_rejects_invalid.2 newEndpoint epAfterW rcvrGoodW rfl⟩

/-- Claim C5 (code evidence): the wrappers hand the variadic argument
slice to the endpoint unexpanded, so the params field of the envelope on
the wire is a one-element sequence wrapping the argument list instead of
the argument list itself; shown at concrete arguments for Client.Call,
ServerConn.Call and ServerConn.Notify. -/
theorem wrapper_call_wraps_params :
    (Client.Call NewClient [] "m" [MP.int 1, MP.int 2] none).wire
      = [MP.arr [MP.int 0, MP.int 1, MP.str "m", MP.arr [MP.arr [MP.int 1, MP.int 2]]]] ∧
    (Client.Call NewClient [] "m" [MP.int 1, MP.int 2] none).wire
      ≠ [MP.arr [MP.int 0, MP.int 1, MP.str "m", MP.arr [MP.int 1, MP.int 2]]] ∧
    (ServerConn.Call NewServerConn [] "m" [MP.int 1, MP.int 2] none).wire
      = [MP.arr [MP.int 0, MP.int 1, MP.str "m", MP.arr [MP.arr [MP.int 1, MP.int 2]]]] ∧
    (ServerConn.Notify NewServerConn [] "n" [MP.int 7] none).wire
      = [MP.arr [MP.int 2, MP.str "n", MP.arr [MP.arr [MP.int 7]]]] := by
  decide

/-- Claim C6 (code evidence): with an entry still pending under msgid 5
and the counter at 4, Call allocates msgid 5 again and proceeds normally:
it suspends as usual, reports no fault, and the Go map assignment has
silently replaced the still-pending record. -/
theorem call_collision_overwrites :
    (epCollideW.Call [] "m" [] none).outcome = CallOutcome.blocked 5 ∧
    mapGet 5 epCollideW.pending = some reqOld ∧
    mapGet 5 (epCollideW.Call [] "m" [] none).ep.pending
      = some { done := false, msgid := 5, rsp := MP.nil, err := none } ∧
    ({ done := false, msgid := 5, rsp := MP.nil, err := none } : Request) ≠ reqOld := by
  decide

/-- Claim C7 (counterexample to the claim as stated): an exported method
matching the worded RPC shape — one input argument, one pointer reply
output, one error return — is nonetheless not retained, because its reply
points at an unexported named type. -/
theorem suitable_shape_counterexample :
    mUnexpReply.pkgPath = "" ∧ isExported mUnexpReply.name = true ∧
    rpcShape mUnexpReply = true ∧ suitableMethods [mUnexpReply] = [] := by
  decide

/-- Claim C7 (amended): method enumeration retains exactly the exported
methods that match the RPC shape and whose reply type is exported or
builtin, and skips every other method; in particular the suitability test
maps a method with fewer than three reflection inputs — fewer than two
explicit arguments — to none instead of faulting. -/
theorem suitableMethods_retains_exact :
    (∀ typ : List GoMethod,
        (suitableMethods typ).map Prod.fst
          = (typ.filter (fun m =>
              decide (m.pkgPath = "") && rpcShape m && replyExportedOk m)).map GoMethod.name) ∧
    (∀ m : GoMethod, m.ins.length < 3 → methodSuitable m = none) := by
  constructor
  · exact suitableMethods_names
  · intro m h
    unfold methodSuitable
    split
    · rfl
    · split
      · rename_i x argT replyT heq
        exact absurd h (by simp [heq])
      · rfl

/-- Witness for claim C7 at a concrete exported method with no explicit
arguments. -/
theorem suitableMethods_retains_exact_witness :
    mNoArgs.ins.length < 3 ∧ methodSuitable mNoArgs = none :=
  ⟨by decide, suitableMethods_retains_exact.2 mNoArgs (by decide)⟩

/-- Claim C8: on a successful send, the envelope Call writes is the
4-element sequence of the request discriminant, the freshly allocated
msgid, the method name and the params array, and the envelope Notify
writes is the 3-element sequence of the notification discriminant, the
method name and the params array; Notify leaves the endpoint state —
msgid counter and pending table included — untouched for every encoder
outcome. -/
theorem call_notify_envelopes (ep : Endpoint) (wire : List MP) (method : String)
    (params : List MP) (h : ep.closed = false) :
    (ep.Call wire method params none).wire
      = wire ++ [MP.arr [MP.int msgpackRPCReq,
          MP.int (((ep.msgid + 1) % uint32Mod : Nat) : Int),
          MP.str method, MP.arr params]] ∧
    (ep.Notify wire method params none).wire
      = wire ++ [MP.arr [MP.int msgpackRPCNotify, MP.str method, MP.arr params]] ∧
    (∀ encErr : Option String, (ep.Notify wire method params encErr).ep = ep) := by
  refine ⟨?_, ?_, fun encErr => rfl⟩ <;>
    simp [Endpoint.Call, Endpoint.Notify, Endpoint.send, callEnvelope, notifyEnvelope, h]

/-- Witness for claim C8 at a fresh endpoint. -/
theorem call_notify_envelopes_witness :
    newEndpoint.closed = false ∧
    ((newEndpoint.Call [] "m" [MP.int 9] none).wire
        = [] ++ [MP.arr [MP.int msgpackRPCReq,
            MP.int (((newEndpoint.msgid + 1) % uint32Mod : Nat) : Int),
            MP.str "m", MP.arr [MP.int 9]]] ∧
     (newEndpoint.Notify [] "m" [MP.int 9] none).wire
        = [] ++ [MP.arr [MP.int msgpackRPCNotify, MP.str "m", MP.arr [MP.int 9]]] ∧
     (∀ encErr : Option String, (newEndpoint.Notify [] "m" [MP.int 9] encErr).ep = newEndpoint)) :=
  ⟨rfl, call_notify_envelopes newEndpoint [] "m" [MP.int 9] rfl⟩

/-- Claim C9: when the request write fails and the freshly allocated msgid
was not already pending, Call returns the send error at once without
suspending on the completion signal, nothing lands on the wire, and the
pending table ends exactly as it began: the entry Call inserted for
itself is removed again. -/
theorem call_send_failure_cleanup (ep : Endpoint) (wire : List MP) (method : String)
    (params : List MP) (e : String) (hclosed : ep.closed = false)
    (hfresh : mapGet ((ep.msgid + 1) % uint32Mod) ep.pending = none) :
    (ep.Call wire method params (some e)).outcome = CallOutcome.ret MP.nil (some e) ∧
    (ep.Call wire method params (some e)).ep.pending = ep.pending ∧
    (ep.Call wire method params (some e)).wire = wire := by
  refine ⟨?_, ?_, ?_⟩ <;>
    simp [Endpoint.Call, Endpoint.send, hclosed, mapDel_mapSet,
      mapDel_of_get_none _ _ hfresh]

/-- Witness for claim C9 at a fresh endpoint with a failing write. -/
theorem call_send_failure_cleanup_witness :
    newEndpoint.closed = false ∧
    mapGet ((newEndpoint.msgid + 1) % uint32Mod) newEndpoint.pending = none ∧
    ((newEndpoint.Call [] "m" [] (some "broken pipe")).outcome
        = CallOutcome.ret MP.nil (some "broken pipe") ∧
     (newEndpoint.Call [] "m" [] (some "broken pipe")).ep.pending = newEndpoint.pending ∧
     (newEndpoint.Call [] "m" [] (some "broken pipe")).wire = []) :=
  ⟨rfl, by decide,
   call_send_failure_cleanup newEndpoint [] "m" [] "broken pipe" rfl (by decide)⟩

/-- Claim C10 (code evidence): NewServerConn leaves the closed channel
field at its zero value, the nil channel, so the first ServerConn.Close
panics — the field is not initialized to a usable channel, and the nil
channel is what Serve would hand to the dispatch loop. -/
theorem serverconn_nil_chan_panics :
    NewServerConn.closed = ChanState.nilChan ∧
    ServerConn.Close NewServerConn = none ∧
    closeChan ChanState.nilChan = none := by
  decide
